import Mathlib

/-!
Verification of the model-selection core of the AIND-Recognizer repository
(`my_model_selectors.py`): the `ModelSelector` strategies `SelectorConstant`,
`SelectorBIC`, `SelectorDIC` and `SelectorCV`.

The external HMM engine (`GaussianHMM(...).fit` / `model.score`), from
`hmmlearn`, is modelled as an oracle: a `fit` function returning
`Option M` (with `none` for a fitting failure, since `base_model` catches
every exception and returns `None`) and a scoring function returning
`Option ℚ` (with `none` for a raised scoring exception).  `np.log` over
natural numbers is likewise an abstract oracle `npLog : Nat → ℚ`.

Python floats are modelled as rationals, except where `np.mean` of an empty
list can produce `NaN` (in `SelectorDIC.score`): there scores live in `PF`,
rationals extended with a `nan` element whose comparison and truthiness
semantics follow IEEE/NumPy (`nan` compares false with everything and is
truthy as a Python value).

`SelectorCV` mutates `self.X` / `self.lengths` in place; that mutable pair
is an explicit state value `DState` threaded through `cvSelect`.
-/

namespace AslSelectors

/-- One observation frame: a feature vector (row of the flattened `X`). -/
abbrev Frame := List ℚ

/-- The mutable `(self.X, self.lengths)` pair of a `ModelSelector` instance:
the flattened observation matrix and the parallel sequence-length list. -/
structure DState where
  X : List Frame
  lengths : List Nat
deriving DecidableEq

/-- The external HMM engine consumed by the selectors, at the selector's
fixed seed: `fit` models `GaussianHMM(n_components=k, ...).fit(X, lengths)`
(`none` = any fitting exception), `mscore` models `model.score(X, lengths)`
(`none` = any scoring exception), `npLog` models `np.log` on `int`. -/
structure Engine (M : Type) where
  fit : Nat → List Frame → List Nat → Option M
  mscore : M → List Frame → List Nat → Option ℚ
  npLog : Nat → ℚ

/-- The read-only configuration a `ModelSelector.__init__` captures:
the vocabulary key order of `all_word_sequences` (`words`), the map
`all_word_Xlengths` (`hwords`), this word's own sequence list
(`all_word_sequences[this_word]`), the word itself, and
`n_constant` / `min_n_components` / `max_n_components`. -/
structure Cfg (M : Type) where
  eng : Engine M
  words : List String
  hwords : String → List Frame × List Nat
  sequences : List (List Frame)
  thisWord : String
  nConstant : Nat
  minN : Nat
  maxN : Nat

variable {M : Type}

/-- Embeds `self.X, self.lengths = all_word_Xlengths[this_word]` set at construction. -/
def initState (cfg : Cfg M) : DState :=
  ⟨(cfg.hwords cfg.thisWord).1, (cfg.hwords cfg.thisWord).2⟩

/-- Embeds `ModelSelector.base_model`: fit at `num_states` on the current
`self.X` / `self.lengths`; every exception is caught and `None` returned. -/
def base_model (cfg : Cfg M) (st : DState) (numStates : Nat) : Option M :=
  cfg.eng.fit numStates st.X st.lengths

/-- Embeds `range(self.min_n_components, self.max_n_components + 1)`. -/
def candRange (cfg : Cfg M) : List Nat :=
  List.range' cfg.minN (cfg.maxN + 1 - cfg.minN)

/-- Python `min(l, key=key)`: first element with the smallest key;
`none` on the empty list (where CPython raises `ValueError`). -/
def pyMinBy {α : Type} (key : α → ℚ) : List α → Option α
  | [] => none
  | x :: xs => some (xs.foldl (fun acc y => if key y < key acc then y else acc) x)

/-- Python `max(l, key=key)` over rational keys: first element with the
largest key; `none` on the empty list (where CPython raises `ValueError`). -/
def pyMaxBy {α : Type} (key : α → ℚ) : List α → Option α
  | [] => none
  | x :: xs => some (xs.foldl (fun acc y => if key acc < key y then y else acc) x)

/-! Section: SelectorConstant -/

/-- Embeds `SelectorConstant.select`: `return self.base_model(self.n_constant)`. -/
def selectorConstant (cfg : Cfg M) : Option M :=
  base_model cfg (initState cfg) cfg.nConstant

/-! Section: SelectorBIC -/

/-- Embeds `SelectorBIC.score(num_states, model)`:
`num_features = len(self.X[0])` (raises on empty `X`),
`num_param = num_states**2 + 2*num_features*num_states - 1`, and
`-2*model.score(self.X, self.lengths) + num_param*np.log(len(self.X))`.
`none` models the exception caught by `select`'s `try`. -/
def bicScoreOpt (cfg : Cfg M) (numStates : Nat) (m : M) : Option ℚ :=
  match (initState cfg).X with
  | [] => none
  | f :: rest =>
      (cfg.eng.mscore m (initState cfg).X (initState cfg).lengths).map fun L =>
        -2 * L +
          (((numStates : ℤ) ^ 2 + 2 * (f.length : ℤ) * (numStates : ℤ) - 1 : ℤ) : ℚ) *
            cfg.eng.npLog (f :: rest).length

/-- One iteration of `SelectorBIC.select`'s loop: the `(model, score)` pair
appended to `results` for `num_states`, or `none` when the guarded block
failed (`base_model` returned `None`, so `model.score` raised, or
`self.score` itself raised). -/
def bicEntry (cfg : Cfg M) (numStates : Nat) : Option (M × ℚ) :=
  (base_model cfg (initState cfg) numStates).bind fun m =>
    (bicScoreOpt cfg numStates m).map fun s => (m, s)

/-- The `results` list accumulated by `SelectorBIC.select`. -/
def bicResults (cfg : Cfg M) : List (M × ℚ) :=
  (candRange cfg).filterMap (bicEntry cfg)

/-- Embeds the final step of `SelectorBIC.select`: `min(results, key=itemgetter(1))[0]`;
`none` models the `ValueError` when `results` is empty. -/
def bicSelect (cfg : Cfg M) : Option M :=
  (pyMinBy (fun p => p.2) (bicResults cfg)).map (fun p => p.1)

/-! Section: SelectorDIC -/

/-- A Python float that may be `NaN` (produced by `np.mean([])`). -/
inductive PF where
  | nan : PF
  | val : ℚ → PF
deriving DecidableEq

/-- Embeds `np.mean` of a list of floats: `NaN` on the empty list. -/
def npMeanPF (l : List ℚ) : PF :=
  if l.isEmpty then .nan else .val (l.sum / l.length)

/-- Float subtraction `e - a` where `a` may be `NaN`. -/
def pfSub (e : ℚ) : PF → PF
  | .nan => .nan
  | .val a => .val (e - a)

/-- Python truthiness of a float: `0.0` is falsy, `NaN` and every other
value truthy. -/
def pfTruthy : PF → Bool
  | .nan => true
  | .val q => decide (q ≠ 0)

/-- Python `>` on floats: comparisons with `NaN` are false. -/
def pfGt : PF → PF → Bool
  | .val a, .val b => decide (b < a)
  | _, _ => false

/-- Python `max(l, key=key)` over float keys that may be `NaN`:
the running maximum is replaced exactly when `key y > key acc`. -/
def pyMaxByPF {α : Type} (key : α → PF) : List α → Option α
  | [] => none
  | x :: xs => some (xs.foldl (fun acc y => if pfGt (key y) (key acc) then y else acc) x)

/-- The other vocabulary items:
`[word for word in self.words if self.this_word != word]`. -/
def otherWords (cfg : Cfg M) : List String :=
  cfg.words.filter (fun w => cfg.thisWord ≠ w)

/-- The `anti_evidences` list of `SelectorDIC.score`: each other item's
`model.score(X, lengths)`, with every scoring failure skipped by
`except: continue`. -/
def dicAnti (cfg : Cfg M) (m : M) : List ℚ :=
  (otherWords cfg).filterMap fun w =>
    cfg.eng.mscore m (cfg.hwords w).1 (cfg.hwords w).2

/-- Embeds `SelectorDIC.score(model)` on an actual model: `None` when scoring the
own item's data raises, else `evidence - np.mean(anti_evidences)`. -/
def dicScoreOpt (cfg : Cfg M) (m : M) : Option PF :=
  (cfg.eng.mscore m (initState cfg).X (initState cfg).lengths).map fun e =>
    pfSub e (npMeanPF (dicAnti cfg m))

/-- One iteration of `SelectorDIC.select`'s loop: the `(model, score)` pair
appended for `num_states`, or `none`.  When `base_model` returns `None`,
`self.score(None)` returns `None` (every `model.score` call raises), and
`if score:` keeps only truthy scores. -/
def dicEntry (cfg : Cfg M) (numStates : Nat) : Option (M × PF) :=
  (base_model cfg (initState cfg) numStates).bind fun m =>
    (dicScoreOpt cfg m).bind fun s =>
      if pfTruthy s then some (m, s) else none

/-- The `results` list accumulated by `SelectorDIC.select`. -/
def dicResults (cfg : Cfg M) : List (M × PF) :=
  (candRange cfg).filterMap (dicEntry cfg)

/-- Embeds the final step of `SelectorDIC.select`: `max(results, key=itemgetter(1))[0]`;
`none` models the `ValueError` when `results` is empty. -/
def dicSelect (cfg : Cfg M) : Option M :=
  (pyMaxByPF (fun p => p.2) (dicResults cfg)).map (fun p => p.1)

/-! Section: SelectorCV -/

/-- Modelled from the spec: `combine_sequences` from `asl_utils` is not
under `src/`; per the spec's SequenceSet invariant it builds the flattened
observation matrix and parallel length list for the selected sequence
indices, concatenating the chosen sequences in order. -/
def combine_sequences (idx : List Nat) (seqs : List (List Frame)) :
    List Frame × List Nat :=
  ((idx.map fun i => seqs.getD i []).flatten,
    idx.map fun i => (seqs.getD i []).length)

/-- The test-fold sizes of `sklearn.model_selection.KFold(n_splits=k)` over
`n` samples without shuffling: the first `n % k` folds get `n / k + 1`
samples, the rest `n / k`. -/
def kfTestSizes (n k : Nat) : List Nat :=
  (List.range k).map fun i => n / k + if i < n % k then 1 else 0

/-- Builds `(train_idx, test_idx)` pairs from consecutive test blocks:
each test block is a run of consecutive indices, the train indices are the
complement in increasing order. -/
def kfFoldsAux (n : Nat) : Nat → List Nat → List (List Nat × List Nat)
  | _, [] => []
  | start, s :: rest =>
      ((List.range n).filter (fun i => decide (i < start) || decide (start + s ≤ i)),
        List.range' start s) :: kfFoldsAux n (start + s) rest

/-- Embeds `KFold(n_splits=k).split(...)` over `n` samples, no shuffling. -/
def kfFolds (n k : Nat) : List (List Nat × List Nat) :=
  kfFoldsAux n 0 (kfTestSizes n k)

/-- The fold count `SelectorCV.select` requests:
`len(self.sequences)` when that is below `num_splits = 3`, else `3`. -/
def numSplits (cfg : Cfg M) : Nat :=
  if cfg.sequences.length < 3 then cfg.sequences.length else 3

/-- One fold of `SelectorCV.select`'s inner loop: set `self.X`/`self.lengths`
to the combined train split, call `base_model`, set them to the combined
test split, score.  The first component is the appended score (`none` when
`base_model` returned `None` — so `model.score` raised — or scoring raised);
the second is the state left behind (always the test-split combination,
since line `self.X, self.lengths = combine_sequences(cv_test_idx, ...)` runs
before the scoring call that can raise). -/
def cvFoldStep (cfg : Cfg M) (numStates : Nat) (fold : List Nat × List Nat) :
    Option ℚ × DState :=
  ((cfg.eng.fit numStates (combine_sequences fold.1 cfg.sequences).1
      (combine_sequences fold.1 cfg.sequences).2).bind fun m =>
    cfg.eng.mscore m (combine_sequences fold.2 cfg.sequences).1
      (combine_sequences fold.2 cfg.sequences).2,
    ⟨(combine_sequences fold.2 cfg.sequences).1,
      (combine_sequences fold.2 cfg.sequences).2⟩)

/-- The `cv_scores` list for one `num_states`: the held-out log-likelihoods
of exactly the folds whose fit and scoring both succeeded. -/
def cvScores (cfg : Cfg M) (numStates : Nat) : List ℚ :=
  (kfFolds cfg.sequences.length (numSplits cfg)).filterMap
    fun f => (cvFoldStep cfg numStates f).1

/-- One iteration of `SelectorCV.select`'s outer loop: the
`(num_states, avg_score)` pair appended to `results` when `cv_scores` is
nonempty (`np.mean` of a nonempty list is sum over length), else nothing. -/
def cvEntry (cfg : Cfg M) (numStates : Nat) : Option (Nat × ℚ) :=
  if (cvScores cfg numStates).isEmpty then none
  else some (numStates,
    (cvScores cfg numStates).sum / (cvScores cfg numStates).length)

/-- The `results` list accumulated by `SelectorCV.select`. -/
def cvResults (cfg : Cfg M) : List (Nat × ℚ) :=
  (candRange cfg).filterMap (cvEntry cfg)

/-- The `self.X`/`self.lengths` state after `SelectorCV.select`'s candidate
loop has run at least one candidate: the combination of the last fold's
test indices (every candidate iterates the same folds). -/
def cvLoopEndState (cfg : Cfg M) (st0 : DState) : DState :=
  match (kfFolds cfg.sequences.length (numSplits cfg)).getLast? with
  | none => st0
  | some f =>
      ⟨(combine_sequences f.2 cfg.sequences).1,
        (combine_sequences f.2 cfg.sequences).2⟩

/-- The failure modes of `SelectorCV.select`: `kfoldBad ns` models the
`ValueError` raised by `KFold.__init__` when the requested `n_splits = ns`
is below 2 (reached with fewer than 2 sequences, before any split is
attempted); `noViable` models the `ValueError` from `max(results, ...)` on
an empty `results`. -/
inductive CvErr where
  | kfoldBad : Nat → CvErr
  | noViable : CvErr
deriving DecidableEq

/-- Embeds `SelectorCV.select` with the mutable `(self.X, self.lengths)` state
threaded explicitly.  On success the state is restored to
`self.hwords[self.this_word]` and `base_model(best_num_components)` is
returned (possibly `None` if that final fit fails); on the empty-`results`
failure the state is left as the candidate loop left it. -/
def cvSelect (cfg : Cfg M) (st0 : DState) : Except CvErr (Option M) × DState :=
  if (candRange cfg).isEmpty then
    (.error .noViable, st0)
  else if numSplits cfg < 2 then
    (.error (.kfoldBad (numSplits cfg)), st0)
  else
    match pyMaxBy (fun p => p.2) (cvResults cfg) with
    | none => (.error .noViable, cvLoopEndState cfg st0)
    | some best =>
        (.ok (cfg.eng.fit best.1 (cfg.hwords cfg.thisWord).1
            (cfg.hwords cfg.thisWord).2),
          ⟨(cfg.hwords cfg.thisWord).1, (cfg.hwords cfg.thisWord).2⟩)

/-! Concrete test data: small vocabularies and engines used to
instantiate the theorems on closed inputs -/

/-- A two-frame, two-feature sequence, the item `a`'s own data. -/
def seqA : List Frame := [[1, 2], [3, 4]]

/-- A one-frame sequence, the pooled data of the other item `b`. -/
def seqB : List Frame := [[5, 6]]

/-- Engine whose fit always yields the state count itself as the model and
whose log-likelihood is `-numStates`. -/
def engB : Engine Nat :=
  ⟨fun k _ _ => some k, fun m _ _ => some (-(m : ℚ)), fun _ => 1⟩

/-- Two-word vocabulary, item `a`, range `[2, 3]`. -/
def cfgB : Cfg Nat := ⟨engB, ["a", "b"], fun _ => (seqA, [2]), [seqA], "a", 3, 2, 3⟩

/-- Engine whose scoring distinguishes the item's own data (`seqA`,
log-likelihood = state count) from all other data (log-likelihood 0). -/
def engD : Engine Nat :=
  ⟨fun k _ _ => some k, fun m X _ => if X = seqA then some (m : ℚ) else some 0,
    fun _ => 1⟩

/-- Two-word vocabulary for `SelectorDIC`, range `[2, 3]`. -/
def cfgD : Cfg Nat :=
  ⟨engD, ["a", "b"], fun w => if w = "a" then (seqA, [2]) else (seqB, [1]),
    [seqA], "a", 3, 2, 3⟩

/-- Engine that fails scoring on the item's own data (`seqA`) but scores
every other item's data. -/
def engD2 : Engine Nat :=
  ⟨fun k _ _ => some k, fun _ X _ => if X = seqA then none else some 1,
    fun _ => 1⟩

/-- Like `cfgD` but with `engD2`: the own-item scoring always fails. -/
def cfgD2 : Cfg Nat :=
  ⟨engD2, ["a", "b"], fun w => if w = "a" then (seqA, [2]) else (seqB, [1]),
    [seqA], "a", 3, 2, 3⟩

/-- Engine giving every observation set the same log-likelihood `5`, so the
DIC discriminative gap is exactly `0`. -/
def engZ : Engine Nat :=
  ⟨fun k _ _ => some k, fun _ _ _ => some 5, fun _ => 1⟩

/-- A single-candidate (`[2, 2]`) DIC configuration whose only candidate
gets DIC score exactly `0`. -/
def cfgZ : Cfg Nat :=
  ⟨engZ, ["a", "b"], fun w => if w = "a" then (seqA, [2]) else (seqB, [1]),
    [seqA], "a", 3, 2, 2⟩

/-- An empty candidate range: `minStates = 5 > 4 = maxStates`. -/
def cfgE : Cfg Nat := ⟨engB, ["a", "b"], fun _ => (seqA, [2]), [seqA], "a", 3, 5, 4⟩

/-- Engine for which every fit and every scoring fails. -/
def engF : Engine Nat := ⟨fun _ _ _ => none, fun _ _ _ => none, fun _ => 1⟩

/-- Three single-frame sequences and their full-item flattened form. -/
def s1 : List Frame := [[1]]

def s2 : List Frame := [[2]]

def s3 : List Frame := [[3]]

def fullF : List Frame := [[1], [2], [3]]

/-- Three-sequence item on the always-failing engine: every candidate of
`[2, 3]` fails to fit, so every comparison set stays empty. -/
def cfgF : Cfg Nat :=
  ⟨engF, ["a"], fun _ => (fullF, [1, 1, 1]), [s1, s2, s3], "a", 3, 2, 3⟩

/-- Engine whose held-out scoring fails exactly on the first fold's test
split (`s1`) and yields `7` on every other observation set. -/
def engCV : Engine Nat :=
  ⟨fun k _ _ => some k, fun _ X _ => if X = s1 then none else some 7, fun _ => 1⟩

/-- Three-sequence CV configuration where one fold fails and two folds
score `7` each. -/
def cfgCV : Cfg Nat :=
  ⟨engCV, ["a"], fun _ => (fullF, [1, 1, 1]), [s1, s2, s3], "a", 3, 2, 3⟩

/-- A single-sequence item: `KFold` would be requested with `n_splits=1`. -/
def cfg1 : Cfg Nat := ⟨engB, ["a"], fun _ => (seqA, [2]), [seqA], "a", 3, 2, 3⟩

/-! Helper lemmas: membership in the candidate range, and the
keep-first semantics of Python `min`/`max` folds -/

lemma mem_candRange (cfg : Cfg M) (k : Nat) :
    k ∈ candRange cfg ↔ cfg.minN ≤ k ∧ k ≤ cfg.maxN := by
  simp only [candRange, List.mem_range'_1]
  omega

lemma candRange_isEmpty_iff (cfg : Cfg M) :
    (candRange cfg).isEmpty = true ↔ cfg.maxN < cfg.minN := by
  simp only [candRange, List.isEmpty_iff, List.range'_eq_nil]
  omega

/-- The running value of a keep-or-replace fold stays in the input list. -/
lemma foldl_pick_mem {α : Type} (f : α → α → α) (hf : ∀ a b, f a b = a ∨ f a b = b)
    (l : List α) (a : α) : l.foldl f a ∈ a :: l := by
  induction l generalizing a with
  | nil => simp
  | cons b bs ih =>
    simp only [List.foldl_cons]
    rcases hf a b with h | h <;> rw [h]
    · have := ih a
      simp only [List.mem_cons] at this ⊢
      tauto
    · have := ih b
      simp only [List.mem_cons] at this ⊢
      tauto

/-- A strict-greater test on keys, as used by `max`-style folds; Python's
`min` is the same fold with the test flipped. -/
def replTest {α β : Type} (gtB : β → β → Bool) (key : α → β) (c acc : α) : α :=
  if gtB (key c) (key acc) then c else acc

lemma replTest_pick {α β : Type} (gtB : β → β → Bool) (key : α → β) (a b : α) :
    replTest gtB key b a = a ∨ replTest gtB key b a = b := by
  unfold replTest
  by_cases h : gtB (key b) (key a) = true <;> simp [h]

/-- If the running value already beats `y`, it keeps beating `y` as the
fold advances (the running value only ever strictly increases). -/
lemma foldl_repl_mono {α β : Type} (gtB : β → β → Bool)
    (htrans : ∀ x y z, gtB z y = true → gtB x y = false → gtB x z = false)
    (key : α → β) (l : List α) :
    ∀ acc y, gtB (key y) (key acc) = false →
      gtB (key y) (key (l.foldl (fun p c => replTest gtB key c p) acc)) = false := by
  induction l with
  | nil => intro acc y h; simpa using h
  | cons c cs ih =>
    intro acc y h
    simp only [List.foldl_cons]
    by_cases hc : gtB (key c) (key acc) = true
    · have hyc : gtB (key y) (key c) = false := htrans _ _ _ hc h
      have : replTest gtB key c acc = c := by simp [replTest, hc]
      rw [this]
      exact ih c y hyc
    · have : replTest gtB key c acc = acc := by
        simp only [replTest]
        rw [if_neg hc]
      rw [this]
      exact ih acc y h

/-- The result of a `max`-style keep-or-replace fold is beaten by no
element: Python's `max`/`min` return an element no other element strictly
exceeds (resp. undercuts). -/
lemma foldl_repl_notGt {α β : Type} (gtB : β → β → Bool)
    (hirr : ∀ x, gtB x x = false)
    (hasym : ∀ x y, gtB x y = true → gtB y x = false)
    (htrans : ∀ x y z, gtB z y = true → gtB x y = false → gtB x z = false)
    (key : α → β) (l : List α) (a : α) :
    ∀ y ∈ a :: l,
      gtB (key y) (key (l.foldl (fun p c => replTest gtB key c p) a)) = false := by
  induction l generalizing a with
  | nil =>
    intro y hy
    simp only [List.mem_singleton] at hy
    subst hy
    simpa using hirr (key y)
  | cons b bs ih =>
    intro y hy
    simp only [List.foldl_cons]
    rcases List.mem_cons.mp hy with rfl | hy
    · have : gtB (key y) (key (replTest gtB key b y)) = false := by
        simp only [replTest]
        by_cases h : gtB (key b) (key y) = true
        · rw [if_pos h]
          exact hasym _ _ h
        · rw [if_neg h]
          exact hirr _
      exact foldl_repl_mono gtB htrans key bs _ y this
    rcases List.mem_cons.mp hy with rfl | hy
    · have : gtB (key y) (key (replTest gtB key y a)) = false := by
        simp only [replTest]
        by_cases h : gtB (key y) (key a) = true
        · rw [if_pos h]
          exact hirr _
        · rw [if_neg h]
          simpa using h
      exact foldl_repl_mono gtB htrans key bs _ y this
    · exact ih (replTest gtB key b a) y (List.mem_cons_of_mem _ hy)

/-! The three concrete selection folds, rewritten through `replTest`. -/

lemma pyMinBy_eq_fold {α : Type} (key : α → ℚ) (x : α) (xs : List α) :
    pyMinBy key (x :: xs) =
      some (xs.foldl (fun p c => replTest (fun u v => decide (u < v)) key c p) x) := by
  simp only [pyMinBy, replTest, decide_eq_true_eq]

lemma pyMaxBy_eq_fold {α : Type} (key : α → ℚ) (x : α) (xs : List α) :
    pyMaxBy key (x :: xs) =
      some (xs.foldl (fun p c => replTest (fun u v => decide (v < u)) key c p) x) := by
  simp only [pyMaxBy, replTest, decide_eq_true_eq]

lemma pyMaxByPF_eq_fold {α : Type} (key : α → PF) (x : α) (xs : List α) :
    pyMaxByPF key (x :: xs) =
      some (xs.foldl (fun p c => replTest pfGt key c p) x) := by
  simp only [pyMaxByPF, replTest]

lemma pyMinBy_spec {α : Type} (key : α → ℚ) (l : List α) (x : α)
    (h : pyMinBy key l = some x) : x ∈ l ∧ ∀ y ∈ l, key x ≤ key y := by
  match l with
  | [] => simp [pyMinBy] at h
  | a :: as =>
    rw [pyMinBy_eq_fold] at h
    obtain rfl : _ = x := Option.some_injective _ h
    constructor
    · exact foldl_pick_mem _ (fun p c => replTest_pick _ key p c) as a
    · intro y hy
      have := foldl_repl_notGt (fun u v : ℚ => decide (u < v))
        (by intro x; simp) (by intro x y h; simp at h ⊢; linarith)
        (by intro x y z h1 h2; simp at h1 h2 ⊢; linarith)
        key as a y hy
      simpa using this

lemma pyMaxBy_spec {α : Type} (key : α → ℚ) (l : List α) (x : α)
    (h : pyMaxBy key l = some x) : x ∈ l ∧ ∀ y ∈ l, key y ≤ key x := by
  match l with
  | [] => simp [pyMaxBy] at h
  | a :: as =>
    rw [pyMaxBy_eq_fold] at h
    obtain rfl : _ = x := Option.some_injective _ h
    constructor
    · exact foldl_pick_mem _ (fun p c => replTest_pick _ key p c) as a
    · intro y hy
      have := foldl_repl_notGt (fun u v : ℚ => decide (v < u))
        (by intro x; simp) (by intro x y h; simp at h ⊢; linarith)
        (by intro x y z h1 h2; simp at h1 h2 ⊢; linarith)
        key as a y hy
      simpa using this

lemma pfGt_irrefl (x : PF) : pfGt x x = false := by
  cases x <;> simp [pfGt]

lemma pfGt_asymm (x y : PF) (h : pfGt x y = true) : pfGt y x = false := by
  cases x <;> cases y <;> simp_all [pfGt] <;> linarith

lemma pfGt_trans_absorb (x y z : PF) (h1 : pfGt z y = true) (h2 : pfGt x y = false) :
    pfGt x z = false := by
  cases x <;> cases y <;> cases z <;> simp_all [pfGt] <;> linarith

lemma pyMaxByPF_spec {α : Type} (key : α → PF) (l : List α) (x : α)
    (h : pyMaxByPF key l = some x) : x ∈ l ∧ ∀ y ∈ l, pfGt (key y) (key x) = false := by
  match l with
  | [] => simp [pyMaxByPF] at h
  | a :: as =>
    rw [pyMaxByPF_eq_fold] at h
    obtain rfl : _ = x := Option.some_injective _ h
    constructor
    · exact foldl_pick_mem _ (fun p c => replTest_pick _ key p c) as a
    · intro y hy
      exact foldl_repl_notGt pfGt pfGt_irrefl pfGt_asymm pfGt_trans_absorb key as a y hy

lemma pyMinBy_eq_none_iff {α : Type} (key : α → ℚ) (l : List α) :
    pyMinBy key l = none ↔ l = [] := by
  cases l <;> simp [pyMinBy]

lemma pyMaxBy_eq_none_iff {α : Type} (key : α → ℚ) (l : List α) :
    pyMaxBy key l = none ↔ l = [] := by
  cases l <;> simp [pyMaxBy]

lemma pyMaxByPF_eq_none_iff {α : Type} (key : α → PF) (l : List α) :
    pyMaxByPF key l = none ↔ l = [] := by
  cases l <;> simp [pyMaxByPF]

lemma bicEntry_mem_results (cfg : Cfg M) (k : Nat) (p : M × ℚ)
    (h1 : cfg.minN ≤ k) (h2 : k ≤ cfg.maxN) (he : bicEntry cfg k = p) :
    p ∈ bicResults cfg :=
  List.mem_filterMap.mpr ⟨k, (mem_candRange cfg k).mpr ⟨h1, h2⟩, he⟩

/-- C8: `SelectorConstant.select` fits exactly the configured constant state
count on the item's own full data and returns that single fit attempt's
result: it is insensitive to `minStates`/`maxStates`, depends only on the
engine's behaviour at the constant count, and propagates the fitting
failure (`none`) of that single attempt without retrying any other count. -/
theorem selectorConstant_single_fit (cfg : Cfg M) (a b : Nat) (eng2 : Engine M)
    (hagree : eng2.fit cfg.nConstant (initState cfg).X (initState cfg).lengths =
      cfg.eng.fit cfg.nConstant (initState cfg).X (initState cfg).lengths) :
    selectorConstant cfg =
        cfg.eng.fit cfg.nConstant (initState cfg).X (initState cfg).lengths ∧
      selectorConstant { cfg with minN := a, maxN := b } = selectorConstant cfg ∧
      selectorConstant { cfg with eng := eng2 } = selectorConstant cfg ∧
      (cfg.eng.fit cfg.nConstant (initState cfg).X (initState cfg).lengths = none →
        selectorConstant cfg = none) := by
  refine ⟨rfl, rfl, ?_, ?_⟩
  · simpa [selectorConstant, base_model, initState] using hagree
  · intro h
    simpa [selectorConstant, base_model, initState] using h

/-- C1: for every candidate state count `k` in `[minStates, maxStates]`
whose fit and scoring both succeed, `SelectorBIC` records the score
`-2 * logL + (k^2 + 2*F*k - 1) * log N` (`F` = features of a frame,
`N` = total frame count), and `select` returns the model of a recorded
candidate whose BIC score is minimal. -/
theorem bic_formula_and_min_selection (cfg : Cfg M) :
    (∀ k m f rest L, cfg.minN ≤ k → k ≤ cfg.maxN →
      base_model cfg (initState cfg) k = some m →
      (initState cfg).X = f :: rest →
      cfg.eng.mscore m (initState cfg).X (initState cfg).lengths = some L →
      (m, -2 * L + (((k : ℤ) ^ 2 + 2 * (f.length : ℤ) * (k : ℤ) - 1 : ℤ) : ℚ) *
          cfg.eng.npLog (initState cfg).X.length) ∈ bicResults cfg) ∧
    (∀ m, bicSelect cfg = some m →
      ∃ s, (m, s) ∈ bicResults cfg ∧ ∀ p ∈ bicResults cfg, s ≤ p.2) := by
  constructor
  · intro k m f rest L h1 h2 hfit hX hL
    refine bicEntry_mem_results cfg k _ h1 h2 ?_
    rw [hX] at hL
    unfold bicEntry
    rw [hfit]
    simp only [Option.some_bind]
    unfold bicScoreOpt
    rw [hX, hL]
    simp
  · intro m hsel
    unfold bicSelect at hsel
    obtain ⟨p, hp, hm⟩ := Option.map_eq_some'.mp hsel
    obtain ⟨hmem, hle⟩ := pyMinBy_spec _ _ _ hp
    exact ⟨p.2, by rw [← hm, Prod.mk.eta]; exact hmem, hle⟩

/-- C7: for the three comparing strategies, an empty comparison set —
in particular an empty candidate range (`minStates > maxStates`), or every
candidate failing to fit or score — makes `select` fail with the
no-viable-candidate failure (modelled `none` / `CvErr.noViable`), never a
silently substituted default model and, for `SelectorCV`, never the
unrelated fold-splitting error. -/
theorem empty_comparison_set_fails (cfg : Cfg M) (st0 : DState) :
    (cfg.maxN < cfg.minN →
      bicSelect cfg = none ∧ dicSelect cfg = none ∧
      cvSelect cfg st0 = (.error .noViable, st0)) ∧
    ((∀ k ∈ candRange cfg, bicEntry cfg k = none) → bicSelect cfg = none) ∧
    ((∀ k ∈ candRange cfg, dicEntry cfg k = none) → dicSelect cfg = none) ∧
    (2 ≤ numSplits cfg → (∀ k ∈ candRange cfg, cvEntry cfg k = none) →
      (cvSelect cfg st0).1 = .error CvErr.noViable) := by
  have hmt : cfg.maxN < cfg.minN → candRange cfg = [] := by
    intro h
    have := (candRange_isEmpty_iff cfg).mpr h
    exact List.isEmpty_iff.mp this
  refine ⟨?_, ?_, ?_, ?_⟩
  · intro h
    refine ⟨?_, ?_, ?_⟩
    · simp [bicSelect, bicResults, hmt h, pyMinBy]
    · simp [dicSelect, dicResults, hmt h, pyMaxByPF]
    · simp [cvSelect, (candRange_isEmpty_iff cfg).mpr h]
  · intro h
    have : bicResults cfg = [] := List.filterMap_eq_nil_iff.mpr h
    simp [bicSelect, this, pyMinBy]
  · intro h
    have : dicResults cfg = [] := List.filterMap_eq_nil_iff.mpr h
    simp [dicSelect, this, pyMaxByPF]
  · intro hns h
    have hres : cvResults cfg = [] := List.filterMap_eq_nil_iff.mpr h
    unfold cvSelect
    by_cases hE : (candRange cfg).isEmpty
    · simp [hE]
    · simp [hE, Nat.not_lt.mpr hns, hres, pyMaxBy]

lemma filterMap_eq_map_of_forall {α β : Type} (f : α → Option β) (g : α → β)
    (l : List α) (h : ∀ x ∈ l, f x = some (g x)) : l.filterMap f = l.map g := by
  induction l with
  | nil => rfl
  | cons a as ih =>
    rw [List.filterMap_cons, h a (List.mem_cons_self a as), List.map_cons,
      ih fun x hx => h x (List.mem_cons_of_mem a hx)]

lemma length_filterMap_eq_length_filter {α β : Type} (f : α → Option β) (l : List α) :
    (l.filterMap f).length = (l.filter (fun x => (f x).isSome)).length := by
  induction l with
  | nil => rfl
  | cons a as ih =>
    rw [List.filterMap_cons, List.filter_cons]
    cases h : f a <;> simp [h, ih]

/-- C2: when a candidate's fit, its own-item scoring and every other item's
scoring succeed (with at least one other item and a nonzero resulting
score), `SelectorDIC` records the DIC score
`ownLogL - mean(otherLogL over every other item)`, and — when all recorded
scores are real numbers — `select` returns the model of a recorded
candidate whose DIC score is maximal. -/
theorem dic_formula_and_max_selection (cfg : Cfg M) :
    (∀ k m e g, cfg.minN ≤ k → k ≤ cfg.maxN →
      base_model cfg (initState cfg) k = some m →
      cfg.eng.mscore m (initState cfg).X (initState cfg).lengths = some e →
      (∀ w ∈ otherWords cfg,
        cfg.eng.mscore m (cfg.hwords w).1 (cfg.hwords w).2 = some (g w)) →
      otherWords cfg ≠ [] →
      e - ((otherWords cfg).map g).sum / ((otherWords cfg).map g).length ≠ 0 →
      (m, PF.val
          (e - ((otherWords cfg).map g).sum / ((otherWords cfg).map g).length)) ∈
        dicResults cfg) ∧
    (∀ m, dicSelect cfg = some m →
      (∀ p ∈ dicResults cfg, ∃ q, p.2 = PF.val q) →
      ∃ s, (m, PF.val s) ∈ dicResults cfg ∧
        ∀ p q, p ∈ dicResults cfg → p.2 = PF.val q → q ≤ s) := by
  constructor
  · intro k m e g h1 h2 hfit hown hothers hne hnz
    have hanti : dicAnti cfg m = (otherWords cfg).map g :=
      filterMap_eq_map_of_forall _ _ _ hothers
    have hscore : dicScoreOpt cfg m = some (PF.val
        (e - ((otherWords cfg).map g).sum / ((otherWords cfg).map g).length)) := by
      unfold dicScoreOpt
      rw [hown, hanti]
      have : ((otherWords cfg).map g).isEmpty = false := by
        simpa [List.isEmpty_iff] using hne
      simp [npMeanPF, this, pfSub]
    refine List.mem_filterMap.mpr ⟨k, (mem_candRange cfg k).mpr ⟨h1, h2⟩, ?_⟩
    unfold dicEntry
    rw [hfit]
    simp only [Option.some_bind]
    rw [hscore]
    simp [pfTruthy]
    simpa using hnz
  · intro m hsel hval
    unfold dicSelect at hsel
    obtain ⟨p, hp, hm⟩ := Option.map_eq_some'.mp hsel
    obtain ⟨hmem, hle⟩ := pyMaxByPF_spec _ _ _ hp
    obtain ⟨s, hs⟩ := hval p hmem
    refine ⟨s, ?_, ?_⟩
    · rw [← hm, ← hs, Prod.mk.eta]
      exact hmem
    · intro q r hq hr
      have := hle q hq
      rw [hr, hs] at this
      simpa [pfGt] using this

/-- C3: in `SelectorDIC`, a failed own-item scoring makes the candidate's
score `None`, excluding it from the comparison set entirely, while
other-item scoring failures are only dropped from the averaged list: the
list that is averaged is exactly the successful other-item scores (its
length counts only successes — no zero or sentinel is substituted).  The
configuration, and with it every combination of per-item scoring outcomes,
is universally quantified. -/
theorem dic_failure_asymmetry (cfg : Cfg M) (k : Nat) (m : M) :
    (base_model cfg (initState cfg) k = some m →
      cfg.eng.mscore m (initState cfg).X (initState cfg).lengths = none →
      dicEntry cfg k = none) ∧
    (∀ e, cfg.eng.mscore m (initState cfg).X (initState cfg).lengths = some e →
      dicScoreOpt cfg m = some (pfSub e (npMeanPF ((otherWords cfg).filterMap
        fun w => cfg.eng.mscore m (cfg.hwords w).1 (cfg.hwords w).2)))) ∧
    (dicAnti cfg m).length = ((otherWords cfg).filter
      (fun w => (cfg.eng.mscore m (cfg.hwords w).1 (cfg.hwords w).2).isSome)).length := by
  refine ⟨?_, ?_, ?_⟩
  · intro hfit hown
    unfold dicEntry
    rw [hfit]
    simp only [Option.some_bind]
    unfold dicScoreOpt
    rw [hown]
    rfl
  · intro e hown
    unfold dicScoreOpt
    rw [hown]
    rfl
  · exact length_filterMap_eq_length_filter _ _

/-- C9: a candidate whose fit succeeds but whose DIC score is exactly `0`
is dropped by the `if score:` truthiness test exactly like a candidate
whose own-item scoring failed: in both cases nothing is appended to the
comparison set for that state count. -/
theorem dic_zero_score_excluded (cfg : Cfg M) (k : Nat) (m : M) :
    (base_model cfg (initState cfg) k = some m →
      dicScoreOpt cfg m = some (PF.val 0) → dicEntry cfg k = none) ∧
    (base_model cfg (initState cfg) k = some m →
      dicScoreOpt cfg m = none → dicEntry cfg k = none) := by
  constructor
  · intro hfit hscore
    unfold dicEntry
    rw [hfit]
    simp only [Option.some_bind]
    rw [hscore]
    simp [pfTruthy]
  · intro hfit hscore
    unfold dicEntry
    rw [hfit]
    simp only [Option.some_bind]
    rw [hscore]
    rfl

lemma cvEntry_some_fst (cfg : Cfg M) (k : Nat) (p : Nat × ℚ)
    (he : cvEntry cfg k = some p) : p.1 = k := by
  unfold cvEntry at he
  split at he
  · exact Option.noConfusion he
  · cases Option.some_injective _ he
    rfl

lemma kfFoldsAux_length (n : Nat) (start : Nat) (sizes : List Nat) :
    (kfFoldsAux n start sizes).length = sizes.length := by
  induction sizes generalizing start with
  | nil => rfl
  | cons s rest ih => simp [kfFoldsAux, ih]

lemma kfFolds_length (n k : Nat) : (kfFolds n k).length = k := by
  simp [kfFolds, kfFoldsAux_length, kfTestSizes]

/-- C4: for any candidate state count, a fold contributes to `cv_scores`
exactly when its fit and its held-out scoring both succeed; the recorded
entry is the mean of those contributions alone (failed folds add neither a
value nor a count), and a candidate with no successful fold is excluded
from the comparison set. -/
theorem cv_mean_over_successful_folds_only (cfg : Cfg M) (k : Nat) :
    (∀ fold, ((cvFoldStep cfg k fold).1).isSome = true ↔
      ∃ m s, cfg.eng.fit k (combine_sequences fold.1 cfg.sequences).1
          (combine_sequences fold.1 cfg.sequences).2 = some m ∧
        cfg.eng.mscore m (combine_sequences fold.2 cfg.sequences).1
          (combine_sequences fold.2 cfg.sequences).2 = some s) ∧
    (cvScores cfg k).length =
      ((kfFolds cfg.sequences.length (numSplits cfg)).filter
        (fun fold => ((cvFoldStep cfg k fold).1).isSome)).length ∧
    (cvScores cfg k ≠ [] →
      cvEntry cfg k = some (k, (cvScores cfg k).sum / (cvScores cfg k).length)) ∧
    (cvScores cfg k = [] → cvEntry cfg k = none ∧ ∀ p ∈ cvResults cfg, p.1 ≠ k) := by
  refine ⟨?_, ?_, ?_, ?_⟩
  · intro fold
    unfold cvFoldStep
    cases hfit : cfg.eng.fit k (combine_sequences fold.1 cfg.sequences).1
        (combine_sequences fold.1 cfg.sequences).2 with
    | none => simp
    | some m =>
      simp only [Option.some_bind]
      constructor
      · intro hs
        obtain ⟨s, hs⟩ := Option.isSome_iff_exists.mp hs
        exact ⟨m, s, rfl, hs⟩
      · rintro ⟨m2, s, hm2, hs⟩
        cases Option.some_injective _ hm2
        simp [hs]
  · exact length_filterMap_eq_length_filter _ _
  · intro h
    have hb : ¬ ((cvScores cfg k).isEmpty = true) := by
      simpa [List.isEmpty_iff] using h
    simp [cvEntry, hb]
  · intro h
    refine ⟨by simp [cvEntry, h], ?_⟩
    intro p hp hpk
    obtain ⟨k2, _, he⟩ := List.mem_filterMap.mp hp
    have hfst := cvEntry_some_fst cfg k2 p he
    have hk2k : k2 = k := by rw [← hfst, hpk]
    rw [hk2k] at he
    simp [cvEntry, h] at he

/-- C5: whenever `SelectorCV.select` succeeds, the stored representation
has been restored to the full-item flattened data
(`self.hwords[self.this_word]`) and the returned model is the engine's fit
of the best recorded candidate's state count on that full data — never a
model fitted on a fold's train split. -/
theorem cv_final_model_fit_on_full_data (cfg : Cfg M) (st0 : DState)
    (ro : Option M) (stF : DState)
    (h : cvSelect cfg st0 = (.ok ro, stF)) :
    stF = initState cfg ∧
    ∃ best, best ∈ cvResults cfg ∧
      ro = cfg.eng.fit best.1 (initState cfg).X (initState cfg).lengths := by
  unfold cvSelect at h
  by_cases hA : (candRange cfg).isEmpty
  · rw [if_pos hA] at h
    simp at h
  · rw [if_neg hA] at h
    by_cases hB : numSplits cfg < 2
    · rw [if_pos hB] at h
      simp at h
    · rw [if_neg hB] at h
      cases hmax : pyMaxBy (fun p => p.2) (cvResults cfg) with
      | none =>
        rw [hmax] at h
        simp at h
      | some best =>
        rw [hmax] at h
        have hmem := (pyMaxBy_spec _ _ _ hmax).1
        have h1 := congrArg Prod.fst h
        have h2 := congrArg Prod.snd h
        simp only at h1 h2
        refine ⟨h2 ▸ rfl, best, hmem, ?_⟩
        cases h1
        rfl

/-- C6: `SelectorCV` always requests `min(3, numberOfSequences)` folds —
never more folds than there are sequences — and for a single-sequence item
the fold count is clamped to `1`, upon which the fold splitter's
constructor deterministically rejects it (`kfoldBad 1`) before any split
is attempted, leaving the stored state untouched; a 3-fold split is never
requested. -/
theorem cv_fold_count_clamped (cfg : Cfg M) (st0 : DState) :
    numSplits cfg = min 3 cfg.sequences.length ∧
    numSplits cfg ≤ cfg.sequences.length ∧
    (cfg.sequences.length = 1 → (candRange cfg).isEmpty = false →
      numSplits cfg = 1 ∧ cvSelect cfg st0 = (.error (.kfoldBad 1), st0)) := by
  refine ⟨?_, ?_, ?_⟩
  · unfold numSplits
    split <;> omega
  · unfold numSplits
    split <;> omega
  · intro h1 hr
    have hns : numSplits cfg = 1 := by simp [numSplits, h1]
    refine ⟨hns, ?_⟩
    unfold cvSelect
    rw [hr]
    simp [hns]

/-- C10: when every candidate is excluded (`results` empty) after at least
one candidate iterated its folds, `SelectorCV.select` stops at the
comparison step with the no-viable-candidate failure and the stored
`X`/`lengths` still hold the last processed fold's test-split combination —
the full-item representation is not restored on this path. -/
theorem cv_state_left_unrestored_on_failure (cfg : Cfg M) (st0 : DState)
    (hrange : (candRange cfg).isEmpty = false)
    (hns : 2 ≤ numSplits cfg)
    (hempty : cvResults cfg = []) :
    cvSelect cfg st0 = (.error .noViable, cvLoopEndState cfg st0) ∧
    ∃ fold, (kfFolds cfg.sequences.length (numSplits cfg)).getLast? = some fold ∧
      cvLoopEndState cfg st0 = ⟨(combine_sequences fold.2 cfg.sequences).1,
        (combine_sequences fold.2 cfg.sequences).2⟩ := by
  constructor
  · unfold cvSelect
    rw [hrange, hempty]
    simp [Nat.not_lt.mpr hns, pyMaxBy]
  · have hlen : (kfFolds cfg.sequences.length (numSplits cfg)).length = numSplits cfg :=
      kfFolds_length _ _
    have hne : kfFolds cfg.sequences.length (numSplits cfg) ≠ [] := by
      intro hnil
      rw [hnil] at hlen
      simp at hlen
      omega
    cases hl : (kfFolds cfg.sequences.length (numSplits cfg)).getLast? with
    | none => exact absurd (List.getLast?_eq_none_iff.mp hl) hne
    | some fold =>
      refine ⟨fold, rfl, ?_⟩
      simp [cvLoopEndState, hl]


/-! Closed instantiations of the theorems above -/

/-- Witness for C8 on `cfgB`: the `select` of `SelectorConstant` is its one
fit at `n_constant = 3`, unchanged by the range and by swapping in another
engine that agrees at the constant count. -/
theorem selectorConstant_single_fit_witness :
    selectorConstant cfgB =
        cfgB.eng.fit cfgB.nConstant (initState cfgB).X (initState cfgB).lengths ∧
      selectorConstant { cfgB with minN := 9, maxN := 1 } = selectorConstant cfgB ∧
      selectorConstant { cfgB with eng := engZ } = selectorConstant cfgB := by
  have h := selectorConstant_single_fit cfgB 9 1 engZ (by with_unfolding_all decide)
  exact ⟨h.1, h.2.1, h.2.2.1⟩

/-- Witness for C1 on `cfgB`: candidate 2 is recorded with BIC score
`-2*(-2) + (2^2 + 2*2*2 - 1)*log 2 = 15` (`log` oracle ≡ 1), and the
returned candidate 2 carries the minimal recorded score. -/
theorem bic_formula_and_min_selection_witness :
    ((2 : Nat), (15 : ℚ)) ∈ bicResults cfgB ∧
    (∃ s, ((2 : Nat), s) ∈ bicResults cfgB ∧ ∀ p ∈ bicResults cfgB, s ≤ p.2) := by
  constructor
  · have h := (bic_formula_and_min_selection cfgB).1 2 2 [1, 2] [[3, 4]] (-2)
      (by decide) (by decide) (by with_unfolding_all decide)
      (by with_unfolding_all decide) (by with_unfolding_all decide)
    with_unfolding_all exact h
  · exact (bic_formula_and_min_selection cfgB).2 2 (by with_unfolding_all decide)

/-- Witness for C7: with `minStates = 5 > 4 = maxStates` all three
comparing selectors fail (`cfgE`), and with every candidate failing to fit
(`cfgF`) they fail with the no-viable-candidate outcome. -/
theorem empty_comparison_set_fails_witness :
    (bicSelect cfgE = none ∧ dicSelect cfgE = none ∧
      cvSelect cfgE (initState cfgE) = (.error .noViable, initState cfgE)) ∧
    bicSelect cfgF = none ∧ dicSelect cfgF = none ∧
    (cvSelect cfgF (initState cfgF)).1 = .error CvErr.noViable := by
  refine ⟨(empty_comparison_set_fails cfgE (initState cfgE)).1 (by decide),
    (empty_comparison_set_fails cfgF (initState cfgF)).2.1
      (by with_unfolding_all decide),
    (empty_comparison_set_fails cfgF (initState cfgF)).2.2.1
      (by with_unfolding_all decide),
    (empty_comparison_set_fails cfgF (initState cfgF)).2.2.2
      (by decide) (by with_unfolding_all decide)⟩

/-- Counterexample for C2 as stated: in `cfgZ` the sole candidate `k = 2`
fits, its own-item and every other-item scoring succeed, its DIC score is
exactly `0` — trivially the maximum DIC score among succeeding candidates —
yet `select` returns no model at all (the truthiness test drops the
candidate and `max` raises on the empty list). -/
theorem dic_zero_gap_counterexample :
    base_model cfgZ (initState cfgZ) 2 = some 2 ∧
    cfgZ.eng.mscore 2 (initState cfgZ).X (initState cfgZ).lengths = some 5 ∧
    (∀ w ∈ otherWords cfgZ,
      cfgZ.eng.mscore 2 (cfgZ.hwords w).1 (cfgZ.hwords w).2 = some 5) ∧
    dicScoreOpt cfgZ 2 = some (PF.val 0) ∧
    candRange cfgZ = [2] ∧
    dicSelect cfgZ = none := by
  refine ⟨by decide, by with_unfolding_all decide, by with_unfolding_all decide,
    by with_unfolding_all decide, by decide, by with_unfolding_all decide⟩

/-- Witness for the amended C2 on `cfgD`: candidate 3 is recorded with DIC
score `3 - mean [0] = 3`, and the returned candidate 3 carries the maximal
recorded real score. -/
theorem dic_formula_and_max_selection_witness :
    ((3 : Nat), PF.val 3) ∈ dicResults cfgD ∧
    (∃ s, ((3 : Nat), PF.val s) ∈ dicResults cfgD ∧
      ∀ p q, p ∈ dicResults cfgD → p.2 = PF.val q → q ≤ s) := by
  constructor
  · have h := (dic_formula_and_max_selection cfgD).1 3 3 3 (fun _ => (0 : ℚ))
      (by decide) (by decide) (by decide) (by with_unfolding_all decide)
      (by with_unfolding_all decide) (by with_unfolding_all decide)
      (by with_unfolding_all decide)
    with_unfolding_all exact h
  · refine (dic_formula_and_max_selection cfgD).2 3 (by with_unfolding_all decide) ?_
    intro p hp
    have hres : dicResults cfgD = [(2, PF.val 2), (3, PF.val 3)] := by
      with_unfolding_all decide
    rw [hres] at hp
    rcases List.mem_cons.mp hp with h | h
    · exact ⟨2, by rw [h]⟩
    · rcases List.mem_cons.mp h with h2 | h2
      · exact ⟨3, by rw [h2]⟩
      · exact absurd h2 (List.not_mem_nil p)

/-- Witness for C3: on `cfgD2` (own-item scoring fails) candidate 2 is
excluded entirely; on `cfgD` (own-item scoring succeeds) the score is the
own evidence minus the mean of exactly the successful other-item scores;
and the averaged list counts only scoring successes. -/
theorem dic_failure_asymmetry_witness :
    dicEntry cfgD2 2 = none ∧
    dicScoreOpt cfgD 2 = some (pfSub 2 (npMeanPF ((otherWords cfgD).filterMap
      fun w => cfgD.eng.mscore 2 (cfgD.hwords w).1 (cfgD.hwords w).2))) ∧
    (dicAnti cfgD2 2).length = ((otherWords cfgD2).filter
      (fun w => (cfgD2.eng.mscore 2 (cfgD2.hwords w).1
        (cfgD2.hwords w).2).isSome)).length := by
  refine ⟨(dic_failure_asymmetry cfgD2 2 2).1 (by decide)
      (by with_unfolding_all decide),
    (dic_failure_asymmetry cfgD 2 2).2.1 2 (by with_unfolding_all decide),
    (dic_failure_asymmetry cfgD2 2 2).2.2⟩

/-- Witness for C9: the zero-scored candidate of `cfgZ` and the
failed-own-scoring candidate of `cfgD2` are excluded identically. -/
theorem dic_zero_score_excluded_witness :
    dicEntry cfgZ 2 = none ∧ dicEntry cfgD2 2 = none := by
  refine ⟨(dic_zero_score_excluded cfgZ 2 2).1 (by decide)
      (by with_unfolding_all decide),
    (dic_zero_score_excluded cfgD2 2 2).2 (by decide)
      (by with_unfolding_all decide)⟩

/-- Witness for C4 on `cfgCV`: fold 1's scoring fails, folds 2 and 3 score
`7`; the recorded mean is over exactly those two folds (no zero shifts it),
and on `cfgF` (no fold succeeds) candidate 2 is excluded. -/
theorem cv_mean_over_successful_folds_only_witness :
    cvScores cfgCV 2 = [7, 7] ∧
    cvEntry cfgCV 2 = some (2, (cvScores cfgCV 2).sum / (cvScores cfgCV 2).length) ∧
    (cvScores cfgCV 2).length =
      ((kfFolds cfgCV.sequences.length (numSplits cfgCV)).filter
        (fun fold => ((cvFoldStep cfgCV 2 fold).1).isSome)).length ∧
    (cvEntry cfgF 2 = none ∧ ∀ p ∈ cvResults cfgF, p.1 ≠ 2) := by
  refine ⟨by with_unfolding_all decide,
    (cv_mean_over_successful_folds_only cfgCV 2).2.2.1 (by with_unfolding_all decide),
    (cv_mean_over_successful_folds_only cfgCV 2).2.1,
    (cv_mean_over_successful_folds_only cfgF 2).2.2.2 (by with_unfolding_all decide)⟩

/-- Witness for C5 on `cfgCV`: the successful `select` returns the engine's
fit of the best candidate on the restored full-item data. -/
theorem cv_final_model_fit_on_full_data_witness :
    initState cfgCV = initState cfgCV ∧
    ∃ best, best ∈ cvResults cfgCV ∧
      (some 2 : Option Nat) =
        cfgCV.eng.fit best.1 (initState cfgCV).X (initState cfgCV).lengths :=
  cv_final_model_fit_on_full_data cfgCV (initState cfgCV) (some 2)
    (initState cfgCV) (by with_unfolding_all rfl)

/-- Witness for C6 on the single-sequence item `cfg1`: the fold count is
clamped to `min 3 1 = 1` and `select` fails deterministically at the fold
splitter's constructor with the state untouched. -/
theorem cv_fold_count_clamped_witness :
    numSplits cfg1 = min 3 cfg1.sequences.length ∧
    numSplits cfg1 ≤ cfg1.sequences.length ∧
    (numSplits cfg1 = 1 ∧
      cvSelect cfg1 (initState cfg1) = (.error (.kfoldBad 1), initState cfg1)) :=
  ⟨(cv_fold_count_clamped cfg1 (initState cfg1)).1,
    (cv_fold_count_clamped cfg1 (initState cfg1)).2.1,
    (cv_fold_count_clamped cfg1 (initState cfg1)).2.2 (by decide) (by decide)⟩

/-- Witness for C10 on `cfgF`: every candidate fails, `select` stops with
`noViable`, and the state it leaves holds the last fold's test combination
`([[3]], [1])`, which differs from the full-item data. -/
theorem cv_state_left_unrestored_on_failure_witness :
    (cvSelect cfgF (initState cfgF) =
        (.error .noViable, cvLoopEndState cfgF (initState cfgF)) ∧
      ∃ fold, (kfFolds cfgF.sequences.length (numSplits cfgF)).getLast? = some fold ∧
        cvLoopEndState cfgF (initState cfgF) =
          ⟨(combine_sequences fold.2 cfgF.sequences).1,
            (combine_sequences fold.2 cfgF.sequences).2⟩) ∧
    cvLoopEndState cfgF (initState cfgF) ≠ initState cfgF := by
  refine ⟨cv_state_left_unrestored_on_failure cfgF (initState cfgF)
      (by decide) (by decide) (by with_unfolding_all decide),
    by with_unfolding_all decide⟩

end AslSelectors
